/-
Verification of the pylumos / pyskylumos simulation pipeline.

Shallow embedding of the four source modules:
  * `pyskylumos/sky_models/Pan.py`           (sky polarization model)
  * `pyskylumos/sensor/OpticalConjugator.py` (lens projection)
  * `pyskylumos/sensor/MicroPolarizer.py`    (micro-polarizer mosaic)
  * `pylumos/sensor/SensorChip.py`           (digitizer)

NumPy arrays are modelled elementwise: each vectorised operation acts
independently on every element, so a per-element function over the scalar
values is a faithful model of the whole-array computation.  IEEE float NaN
(the invalid-pixel sentinel of the code) is modelled as `Option`'s `none`:
every float arithmetic operation maps NaN operands to a NaN result, which
is exactly the propagation behaviour of the `Option` matches below.
Quantities on which only field arithmetic and comparisons are performed are
modelled over `ℚ` (so they stay computable); quantities fed to transcendental
functions (`tan`, `cos`, `exp`, `arg`) are modelled over `ℝ` and `ℂ`.
-/
import Mathlib

open Real

/-! ## Pan.py — empirical Brewster-separation regression (degrees)

`Pan.simulate_sky` computes (lines 139-143):
  angle_between_sun_brewster = where(alt <= 27, (37.34 deg + 0.49*alt).radian,
                                                 (56.84 deg - 0.25*alt).radian)
The branch selection and the two affine branches are modelled over `ℚ`
in degrees (the subsequent conversion to radians is a positive scalar
multiple and does not affect branch agreement). -/

/-- Low-solar-altitude branch of the Brewster-separation regression:
`37.34 + 0.49 * altitude` degrees (`Pan.py` line 141). -/
def brewsterLowBranch (sunAltDeg : ℚ) : ℚ :=
  37.34 + 0.49 * sunAltDeg

/-- High-solar-altitude branch of the Brewster-separation regression:
`56.84 - 0.25 * altitude` degrees (`Pan.py` line 142). -/
def brewsterHighBranch (sunAltDeg : ℚ) : ℚ :=
  56.84 - 0.25 * sunAltDeg

/-- The piecewise Brewster-separation regression of `Pan.simulate_sky`
(lines 139-143): the `where(alt <= 27, low, high)` selection. -/
def angleBetweenSunBrewsterDeg (sunAltDeg : ℚ) : ℚ :=
  if sunAltDeg ≤ 27 then brewsterLowBranch sunAltDeg else brewsterHighBranch sunAltDeg

/-! ## Pan.py — altitude-floor masking step

`Pan.simulate_sky` (lines 184-188):
    if altitude_min_clip:
        mask = self.sky_map.alt.deg <= altitude_min_clip
        radiance[mask] = None
        dop[mask] = None
        aop[mask] = None
Note the Python truthiness test `if altitude_min_clip:`: it is `False` both
for `None` and for the number `0`, so the whole masking block is skipped
when the floor is `0`.  Modelled per pixel; `none` is the NaN sentinel
written by `x[mask] = None`. -/

/-- One pixel of the altitude-floor masking step of `Pan.simulate_sky`
(lines 184-188).  Input: the optional floor, the pixel's altitude (degrees)
and its radiance/DoP/AoP values; output: the (altitude, radiance, DoP, AoP)
after the step.  The guard `c ≠ 0` is the Python truthiness of
`if altitude_min_clip:`. -/
def panAltClipStep (clip : Option ℚ) (alt rad dop aop : ℚ) :
    ℚ × Option ℚ × Option ℚ × Option ℚ :=
  match clip with
  | none => (alt, some rad, some dop, some aop)
  | some c =>
    if c ≠ 0 ∧ alt ≤ c then (alt, none, none, none)
    else (alt, some rad, some dop, some aop)

/-! ## SensorChip.py — digitizer (per pixel)

`SensorChip.get_bits_intensity` (lines 21-47), modelled per pixel.  The
input intensity is `Option ℚ` (`none` = NaN, recorded in `mask`), `n` is
the standard-normal draw `randn()` for this element, and `frameMax` is the
`nanmax` of the element's time frame.  `nan_to_num(i, nan=0)` is
`Option.getD i 0`; the final `bits_intensity[mask] = None` restores `none`
on masked elements. -/

/-- `max_pixel_value = 2 ** adc_resolution - 1` (`SensorChip.py` line 34). -/
def maxPixelValue (adcResolution : ℕ) : ℤ :=
  2 ^ adcResolution - 1

/-- One element of the `white_noise` array of `SensorChip.get_bits_intensity`
(lines 27-32): `(1/snr) * nan_to_num(i) * randn() + nan_to_num(i)`. -/
def whiteNoisePixel (snr : ℚ) (i : Option ℚ) (n : ℚ) : ℚ :=
  (1 / snr) * (i.getD 0) * n + i.getD 0

/-- One element of `SensorChip.get_bits_intensity` (lines 21-47):
`minimum(floor((max_pixel_value / (frame_max * saturation_ratio)) * white_noise), max_pixel_value)`
with the original NaN mask restored on the output. -/
def bitsIntensityPixel (sat : ℚ) (adcResolution : ℕ) (snr frameMax : ℚ)
    (i : Option ℚ) (n : ℚ) : Option ℤ :=
  match i with
  | none => none
  | some _ =>
    some (min ⌊((maxPixelValue adcResolution : ℚ) / (frameMax * sat)) *
            whiteNoisePixel snr i n⌋ (maxPixelValue adcResolution))

/-! ## MicroPolarizer.py — slicing patterns and the orientation map -/

/-- `SlicingPattern` value object: start row, start column and stride of a
regular subset of the pixel grid. -/
structure SlicingPattern where
  start_row : ℕ
  start_column : ℕ
  step : ℕ
deriving DecidableEq, Repr

/-- Whether NumPy's strided slice `[start_row::step, start_column::step]`
selects pixel `(r, c)`. -/
def selects (p : SlicingPattern) (r c : ℕ) : Bool :=
  decide (p.start_row ≤ r) && decide ((r - p.start_row) % p.step = 0) &&
    decide (p.start_column ≤ c) && decide ((c - p.start_column) % p.step = 0)

noncomputable section

/-! ## MicroPolarizer.py — orientation map and Malus response (per pixel)

`MicroPolarizer.get_intensity_on_pixel` (lines 29-66).  The orientation
map starts as `zeros_like(radiance)` and each dictionary entry
(orientation in degrees, `SlicingPattern`) writes its orientation (in
radians) into the pixels its strided slice selects, later entries
overwriting earlier ones; per pixel this is a left fold over the entry
list.  One defect value `tolerance * (1 - 2 * rand())` is added per pixel
(shared over the time dimension). -/

/-- NumPy `deg2rad`. -/
def deg2rad (x : ℝ) : ℝ :=
  x * π / 180

/-- The per-pixel value of `angle_map` after the fill loop of
`MicroPolarizer.get_intensity_on_pixel` (lines 35-45): start at `0`
(`zeros_like`), then each `(orientation_deg, pattern)` entry in order
overwrites the pixel with `deg2rad orientation_deg` when its slice selects
the pixel. -/
def orientationMap (entries : List (ℤ × SlicingPattern)) (r c : ℕ) : ℝ :=
  entries.foldl (fun acc e => if selects e.2 r c then deg2rad (e.1 : ℝ) else acc) 0

/-- The per-pixel manufacturing-defect offset of
`MicroPolarizer.get_intensity_on_pixel` (line 52):
`tolerance * (1 - 2 * rand())` where `u` is the uniform draw for this pixel. -/
def defectAt (tolerance u : ℝ) : ℝ :=
  tolerance * (1 - 2 * u)

/-- One pixel of the Malus-law intensity of
`MicroPolarizer.get_intensity_on_pixel` (lines 56-64):
`0.5 * radiance * (1 + extinction_ratio * DoP * cos(2 * (AoP - angle_map)))`.
`none` models the float NaN sentinel: any NaN among DoP/AoP/radiance makes
every IEEE operation of the formula return NaN. -/
def transmitPixel (extinctionRatio angleMapValue : ℝ) (dop aop rad : Option ℝ) : Option ℝ :=
  match dop, aop, rad with
  | some d, some a, some r =>
    some (0.5 * r * (1 + extinctionRatio * d * Real.cos (2 * (a - angleMapValue))))
  | _, _, _ => none

/-- One pixel of the full `MicroPolarizer.get_intensity_on_pixel` pipeline
(lines 29-66): orientation map fill, defect perturbation, Malus response. -/
def microIntensityPixel (entries : List (ℤ × SlicingPattern))
    (extinctionRatio tolerance u : ℝ) (r c : ℕ) (dop aop rad : Option ℝ) : Option ℝ :=
  transmitPixel extinctionRatio (orientationMap entries r c + defectAt tolerance u) dop aop rad

/-! ## Pan.py — stereographic projections and the omega invariant

`Pan.__get_omega` (lines 66-111).  All angles are radians; the four
special-point projections are complex scalars per time instant, the
observed-point projection varies per pixel. -/

/-- `observed_point_projection = tan(observed_zenith / 2) * exp(i * observed_azimuth)`
(`Pan.py` lines 75-78). -/
def observedPointProjection (zenith azimuth : ℝ) : ℂ :=
  (Real.tan (zenith / 2) : ℂ) * Complex.exp (azimuth * Complex.I)

/-- `brewster_projection` of `Pan.__get_omega` (lines 80-86):
`exp(i * sun_azimuth) * (tan(z/2) + tan(sep/4)) / (1 - tan(z/2) * tan(sep/4))`
where `z` is the sun zenith angle and `sep` the Brewster separation. -/
def brewster_projection (sunZenith sunAzimuth brewsterSep : ℝ) : ℂ :=
  Complex.exp (sunAzimuth * Complex.I) *
    (((Real.tan (sunZenith / 2) + Real.tan (brewsterSep / 4)) /
      (1 - Real.tan (sunZenith / 2) * Real.tan (brewsterSep / 4)) : ℝ) : ℂ)

/-- `babinet_projection` of `Pan.__get_omega` (lines 88-94):
`exp(i * sun_azimuth) * (tan(z/2) - tan(sep/4)) / (1 + tan(z/2) * tan(sep/4))`
where `sep` is the Babinet separation. -/
def babinet_projection (sunZenith sunAzimuth babinetSep : ℝ) : ℂ :=
  Complex.exp (sunAzimuth * Complex.I) *
    (((Real.tan (sunZenith / 2) - Real.tan (babinetSep / 4)) /
      (1 + Real.tan (sunZenith / 2) * Real.tan (babinetSep / 4)) : ℝ) : ℂ)

/-- `arago_projection = -1 / conj(brewster_projection)` (`Pan.py` line 96). -/
def arago_projection (sunZenith sunAzimuth brewsterSep : ℝ) : ℂ :=
  -1 / (starRingEnd ℂ) (brewster_projection sunZenith sunAzimuth brewsterSep)

/-- `fourth_projection = -1 / conj(babinet_projection)` (`Pan.py` line 98). -/
def fourth_projection (sunZenith sunAzimuth babinetSep : ℝ) : ℂ :=
  -1 / (starRingEnd ℂ) (babinet_projection sunZenith sunAzimuth babinetSep)

/-- The complex invariant of `Pan.__get_omega` (lines 100-111): the
normalized four-point product of differences between the observed-point
projection and the four special-point projections. -/
def getOmega (sunZenith sunAzimuth obsZenith obsAzimuth babinetSep brewsterSep : ℝ) : ℂ :=
  (-4 * (observedPointProjection obsZenith obsAzimuth -
          brewster_projection sunZenith sunAzimuth brewsterSep) *
        (observedPointProjection obsZenith obsAzimuth -
          babinet_projection sunZenith sunAzimuth babinetSep) *
        (observedPointProjection obsZenith obsAzimuth -
          arago_projection sunZenith sunAzimuth brewsterSep) *
        (observedPointProjection obsZenith obsAzimuth -
          fourth_projection sunZenith sunAzimuth babinetSep)) /
    ((((1 + Complex.abs (observedPointProjection obsZenith obsAzimuth) ^ 2) ^ 2) *
      Complex.abs (brewster_projection sunZenith sunAzimuth brewsterSep +
        -1 * arago_projection sunZenith sunAzimuth brewsterSep) *
      Complex.abs (babinet_projection sunZenith sunAzimuth babinetSep +
        -1 * fourth_projection sunZenith sunAzimuth babinetSep) : ℝ) : ℂ)

/-- `Pan.__get_dop` (lines 113-115): `|omega| / (2 - |omega|)`. -/
def getDop (omega : ℂ) : ℝ :=
  Complex.abs omega / (2 - Complex.abs omega)

/-- `Pan.__get_aop` (lines 117-121): `0.5 * angle(omega * exp(-2j * sun_azimuth))`. -/
def getAop (omega : ℂ) (sunAzimuth : ℝ) : ℝ :=
  0.5 * (omega * Complex.exp (-2 * Complex.I * (sunAzimuth : ℂ))).arg

/-- The DoP field returned by `Pan.simulate_sky` (lines 145-152 and 164):
`__get_dop` applied to the `__get_omega` invariant, per pixel. -/
def simulateDop (sunZenith sunAzimuth obsZenith obsAzimuth babinetSep brewsterSep : ℝ) : ℝ :=
  getDop (getOmega sunZenith sunAzimuth obsZenith obsAzimuth babinetSep brewsterSep)

/-- The AoP field returned by `Pan.simulate_sky` (lines 145-152 and 163):
`__get_aop` applied to the `__get_omega` invariant, per pixel. -/
def simulateAop (sunZenith sunAzimuth obsZenith obsAzimuth babinetSep brewsterSep : ℝ) : ℝ :=
  getAop (getOmega sunZenith sunAzimuth obsZenith obsAzimuth babinetSep brewsterSep) sunAzimuth

/-- The claim's reading of the Brewster projection, for comparison with the
code's `brewster_projection`.  Modelled from the spec sentence: the
stereographic projection `tan(zenith/2) * exp(i * azimuth)` of the direction
offset below the sun by the full Brewster separation, i.e.
`tan((sun_zenith + brewster_sep) / 2) * exp(i * sun_azimuth)`. -/
def claimedBrewsterProjection (sunZenith sunAzimuth brewsterSep : ℝ) : ℂ :=
  (Real.tan ((sunZenith + brewsterSep) / 2) : ℂ) * Complex.exp (sunAzimuth * Complex.I)

/-! ## OpticalConjugator.py — lens conjugation dispatch and azimuth grid -/

/-- Outcome of `OpticalConjugator.__apply_conjugation` (lines 61-92): either
an altitude value in radians, or the process-terminating
`exit('Invalid lens projection type')` of the fallback branch. -/
inductive ConjOutcome where
  | ok (altitudeRad : ℝ)
  | exited (message : String)

/-- One radial value of `OpticalConjugator.__apply_conjugation` (lines
61-92): dispatch over the lens-conjugation tag, `r` being
`absolute(complex_sensor_plane)` for the pixel and `focal` the focal
length; the `custom` branch delegates to the caller-supplied function and
the fallback branch calls `exit('Invalid lens projection type')`. -/
def applyConjugation (tag : String) (focal : ℝ) (custom : ℝ → ℝ) (r : ℝ) : ConjOutcome :=
  match tag with
  | "thin" => .ok (π / 2 - Real.arctan (r / focal))
  | "stereographic" => .ok (π / 2 - 2 * Real.arctan (r / focal / 2))
  | "equi_angle" => .ok (π / 2 - r / focal)
  | "equi_solid_angle" => .ok (π / 2 - 2 * Real.arcsin (r / focal / 2))
  | "orthogonal" => .ok (π / 2 - Real.arcsin (r / focal))
  | "custom" => .ok (custom r)
  | _ => .exited "Invalid lens projection type"

/-- The horizontal pixel offset in micrometers of
`OpticalConjugator.__get_complex_sensor_plane` (lines 40-52):
`linspace((W-1)/2, -(W-1)/2, W)[c] * pixel_size = s * ((W-1)/2 - c)`. -/
def xOffset (W : ℕ) (s : ℝ) (c : ℕ) : ℝ :=
  s * (((W : ℝ) - 1) / 2 - c)

/-- The vertical pixel offset in micrometers of
`OpticalConjugator.__get_complex_sensor_plane` (lines 46-53):
`linspace((H-1)/2, -(H-1)/2, H)[r] * pixel_size = s * ((H-1)/2 - r)`. -/
def yOffset (H : ℕ) (s : ℝ) (r : ℕ) : ℝ :=
  s * (((H : ℝ) - 1) / 2 - r)

/-- Element `(r, c)` of the complex sensor plane of
`OpticalConjugator.__get_complex_sensor_plane` (lines 55-59):
`x_micrometers[c] + i * y_micrometers[r]`. -/
def complexSensorPlane (H W : ℕ) (s : ℝ) (r c : ℕ) : ℂ :=
  (xOffset W s c : ℂ) + (yOffset H s r : ℂ) * Complex.I

/-- Element `(r, c)` of the azimuth grid returned by
`OpticalConjugator.get_azimuth_altitude` (lines 94-111):
`flip(angle(complex_sensor_plane, deg=True), axis=1)`, i.e. the polar angle
in degrees of the plane element in the mirrored column `W - 1 - c`. -/
def azimuthDeg (H W : ℕ) (s : ℝ) (r c : ℕ) : ℝ :=
  (180 / π) * (complexSensorPlane H W s r (W - 1 - c)).arg

end

/-! ## Helper lemmas -/

/-- An angle of absolute value below `π / 2` is never an odd multiple of `π / 2`
(the non-degeneracy condition of the tangent addition formula). -/
theorem ne_odd_mul_pi_div_two {x : ℝ} (hx : |x| < π / 2) (k : ℤ) :
    x ≠ (2 * k + 1) * π / 2 := by
  intro hk
  have hpi := Real.pi_pos
  have h1 : (1 : ℝ) ≤ |2 * (k : ℝ) + 1| := by
    exact_mod_cast Int.one_le_abs (show (2 * k + 1 : ℤ) ≠ 0 by omega)
  have hx2 : |2 * (k : ℝ) + 1| * (π / 2) < π / 2 := by
    calc |2 * (k : ℝ) + 1| * (π / 2)
        = |(2 * (k : ℝ) + 1) * π / 2| := by
          rw [abs_div, abs_mul, abs_of_nonneg hpi.le,
            abs_of_nonneg (by norm_num : (0 : ℝ) ≤ 2)]
          ring
      _ = |x| := by rw [hk]
      _ < π / 2 := hx
  have h3 : π / 2 ≤ |2 * (k : ℝ) + 1| * (π / 2) :=
    le_mul_of_one_le_left (by positivity) h1
  linarith

/-- A left fold writing orientations only into selected pixels leaves the
accumulator unchanged on a pixel no entry selects. -/
theorem foldl_unselected (r c : ℕ) (a : ℝ) (entries : List (ℤ × SlicingPattern))
    (h : ∀ p ∈ entries, selects p.2 r c = false) :
    entries.foldl (fun acc e => if selects e.2 r c then deg2rad (e.1 : ℝ) else acc) a = a := by
  induction entries generalizing a with
  | nil => rfl
  | cons e es ih =>
    have he : selects e.2 r c = false := h e (List.mem_cons_self e es)
    have hes : ∀ p ∈ es, selects p.2 r c = false := fun p hp => h p (List.mem_cons_of_mem e hp)
    simp only [List.foldl_cons, he, Bool.false_eq_true, if_false]
    exact ih a hes

/-! ## C2 — unsupported lens-conjugation tag -/

/-- C2 counterexample: for the unsupported tag "fisheye" the conjugation
dispatch of `OpticalConjugator.__apply_conjugation` reaches
`exit('Invalid lens projection type')`, a process-terminating side effect,
not a typed recoverable `UnsupportedProjectionError` as the claim states
(no such error type exists in the code). -/
theorem C2_counterexample :
    applyConjugation "fisheye" 1 (fun x => x) 0 =
      ConjOutcome.exited "Invalid lens projection type" := rfl

/-- C2 (amended): for every lens-conjugation tag outside the supported set,
`__apply_conjugation` terminates the process via
`exit('Invalid lens projection type')` at the point of use; it raises no
typed recoverable error. -/
theorem C2_dispatch_amended : ∀ (tag : String), tag ∉ ["thin", "stereographic", "equi_angle",
    "equi_solid_angle", "orthogonal", "custom"] → ∀ (focal : ℝ) (custom : ℝ → ℝ) (r : ℝ),
    applyConjugation tag focal custom r = ConjOutcome.exited "Invalid lens projection type" := by
  intro tag h focal custom r
  unfold applyConjugation
  split <;> simp_all

/-- C2 witness: the amended theorem applied at the concrete unsupported tag
"equidistant". -/
theorem C2_dispatch_amended_witness :
    applyConjugation "equidistant" 2 (fun x => x) 1 =
      ConjOutcome.exited "Invalid lens projection type" :=
  C2_dispatch_amended "equidistant" (by decide) 2 (fun x => x) 1

/-! ## C3 — altitude-floor masking and the truthiness bug -/

/-- C3: evaluating the masking step of `Pan.simulate_sky` at the failing
input `altitude_min_clip = 0` with a pixel at altitude `-5` (at or below
the floor): the Python truthiness guard `if altitude_min_clip:` is false
for `0`, so radiance, DoP and AoP stay unmasked, contradicting the claim;
with a nonzero floor `10` the same pixel is masked to the invalid sentinel
and the altitude is left unmodified, as the claim describes. -/
theorem C3_zero_floor_bug :
    panAltClipStep (some 0) (-5) 1 2 3 = (-5, some 1, some 2, some 3) ∧
    panAltClipStep (some 10) (-5) 1 2 3 = (-5, none, none, none) ∧
    panAltClipStep (some 10) 11 1 2 3 = (11, some 1, some 2, some 3) := by
  refine ⟨?_, ?_, ?_⟩ <;> norm_num [panAltClipStep]

/-! ## C4 — Brewster-separation regression at the 27-degree threshold -/

/-- C4 counterexample: the two closed-form branches of the Brewster
regression do not agree at solar altitude 27 degrees
(`37.34 + 0.49 * 27 = 50.57` but `56.84 - 0.25 * 27 = 50.09`), so the
piecewise model is not discontinuity-free at the switching threshold. -/
theorem C4_counterexample : brewsterLowBranch 27 ≠ brewsterHighBranch 27 := by
  norm_num [brewsterLowBranch, brewsterHighBranch]

/-- C4 (amended): the piecewise Brewster-separation regression of
`Pan.simulate_sky` has a jump of `0.48` degrees at the 27-degree switching
threshold: the regression takes the low-branch value `50.57` at altitude
27 while the high branch, used for every altitude above 27, takes the
value `50.09` there. -/
theorem C4_jump_amended :
    angleBetweenSunBrewsterDeg 27 = brewsterLowBranch 27 ∧
    brewsterLowBranch 27 = 5057 / 100 ∧
    brewsterHighBranch 27 = 5009 / 100 ∧
    brewsterLowBranch 27 - brewsterHighBranch 27 = 48 / 100 := by
  refine ⟨?_, ?_, ?_, ?_⟩ <;>
    norm_num [angleBetweenSunBrewsterDeg, brewsterLowBranch, brewsterHighBranch]

/-! ## C5 — digitizer quantization formula and saturation bound -/

/-- C5: for every configuration (saturation ratio, ADC resolution, SNR),
frame maximum, intensity and noise draw, each valid (non-masked) element of
`SensorChip.get_bits_intensity` equals
`floor((max_pixel_value / (frame_max * saturation_ratio)) * noisy)` clipped
from above at `max_pixel_value = 2^adc_resolution - 1`, and hence never
exceeds `2^adc_resolution - 1`. -/
theorem C5_saturation : ∀ (sat : ℚ) (adc : ℕ) (snr frameMax i n : ℚ),
    bitsIntensityPixel sat adc snr frameMax (some i) n =
      some (min ⌊(((2 ^ adc - 1 : ℤ) : ℚ) / (frameMax * sat)) * ((1 / snr) * i * n + i)⌋
        (2 ^ adc - 1)) ∧
    (bitsIntensityPixel sat adc snr frameMax (some i) n).getD 0 ≤ 2 ^ adc - 1 := by
  intro sat adc snr frameMax i n
  refine ⟨rfl, ?_⟩
  simp only [bitsIntensityPixel, maxPixelValue, Option.getD_some]
  exact min_le_right _ _

/-! ## C6 — end-to-end propagation of the invalid sentinel -/

/-- C6: invalid (NaN-sentinel) pixels propagate end-to-end: any pixel whose
DoP, AoP or radiance is the invalid sentinel yields the invalid sentinel in
the intensity returned by `MicroPolarizer.get_intensity_on_pixel`, and any
pixel whose intensity is the invalid sentinel yields the invalid sentinel
in the digital counts returned by `SensorChip.get_bits_intensity` (the
recorded mask is restored on the output). -/
theorem C6_nan_propagation :
    (∀ (ext angleMapValue : ℝ) (dop aop rad : Option ℝ),
      dop = none ∨ aop = none ∨ rad = none →
      transmitPixel ext angleMapValue dop aop rad = none) ∧
    (∀ (sat : ℚ) (adc : ℕ) (snr frameMax n : ℚ),
      bitsIntensityPixel sat adc snr frameMax none n = none) := by
  constructor
  · rintro ext th dop aop rad (rfl | rfl | rfl)
    · cases aop <;> cases rad <;> rfl
    · cases dop <;> cases rad <;> rfl
    · cases dop <;> cases aop <;> rfl
  · intro sat adc snr frameMax n
    rfl

/-- C6 witness: sentinel propagation at concrete inputs, via the theorem. -/
theorem C6_nan_propagation_witness :
    transmitPixel 1 0 none (some 0) (some 1) = none ∧
    bitsIntensityPixel 1 8 100 5 none 0 = none :=
  ⟨C6_nan_propagation.1 1 0 none (some 0) (some 1) (Or.inl rfl),
   C6_nan_propagation.2 1 8 100 5 0⟩

/-! ## C8 — generalized Malus law and the ideal-polarizer scenario -/

/-- C8: `MicroPolarizer.get_intensity_on_pixel` returns
`0.5 * radiance * (1 + extinction_ratio * DoP * cos(2 * (AoP - orientation_map)))`
elementwise for every valid input, and in the scenario with
`extinction_ratio = 1`, `tolerance = 0`, a uniform single-orientation mosaic
at 0 degrees, DoP 1, AoP 0 and radiance 2 everywhere, the returned
intensity is exactly 2 at every pixel and for every defect draw. -/
theorem C8_malus :
    (∀ (ext angleMapValue d a r : ℝ),
      transmitPixel ext angleMapValue (some d) (some a) (some r) =
        some (0.5 * r * (1 + ext * d * Real.cos (2 * (a - angleMapValue))))) ∧
    (∀ (u : ℝ) (r c : ℕ),
      microIntensityPixel [((0 : ℤ), ⟨0, 0, 1⟩)] 1 0 u r c (some 1) (some 0) (some 2) =
        some 2) := by
  constructor
  · intro ext th d a r
    rfl
  · intro u r c
    simp [microIntensityPixel, orientationMap, deg2rad, defectAt, transmitPixel,
      selects, Real.cos_zero]
    norm_num

/-! ## C10 — default orientation of unselected pixels -/

/-- C10: in `MicroPolarizer.get_intensity_on_pixel`, a pixel selected by no
(orientation, SlicingPattern) entry of the mosaic mapping keeps the
`zeros_like` initialization: its transmission-axis orientation is exactly 0
radians before the random defect is added, so its intensity follows the
Malus formula with orientation `0 + defect`. -/
theorem C10_default_orientation : ∀ (entries : List (ℤ × SlicingPattern))
    (ext tol u : ℝ) (r c : ℕ) (dop aop rad : Option ℝ),
    (∀ p ∈ entries, selects p.2 r c = false) →
    orientationMap entries r c = 0 ∧
    microIntensityPixel entries ext tol u r c dop aop rad =
      transmitPixel ext (0 + defectAt tol u) dop aop rad := by
  intro entries ext tol u r c dop aop rad h
  have h0 : orientationMap entries r c = 0 := foldl_unselected r c 0 entries h
  exact ⟨h0, by simp only [microIntensityPixel, h0]⟩

/-- C10 witness: a pattern starting at row 1, column 1 never selects pixel
(0, 0); the theorem applied there. -/
theorem C10_default_orientation_witness :
    orientationMap [((45 : ℤ), ⟨1, 1, 2⟩)] 0 0 = 0 ∧
    microIntensityPixel [((45 : ℤ), ⟨1, 1, 2⟩)] 1 0 0 0 0 (some 1) (some 0) (some 1) =
      transmitPixel 1 (0 + defectAt 0 0) (some 1) (some 0) (some 1) :=
  C10_default_orientation [((45 : ℤ), ⟨1, 1, 2⟩)] 1 0 0 0 0 (some 1) (some 0) (some 1)
    (by decide)

/-! ## C7 — DoP and AoP returned by simulate -/

/-- C7: for every time instant and pixel, the DoP returned by
`Pan.simulate_sky` equals `|omega| / (2 - |omega|)` and the AoP equals
`0.5 * arg(omega * exp(-2i * sun_azimuth))` (a principal value, so the AoP
lies in the half-period `(-pi/2, pi/2]`), where `omega` is the
`__get_omega` invariant; the DoP is not clamped to `[0, 1]` — the
`__get_dop` map sends an invariant of modulus `3/2` to DoP `3`, above 1. -/
theorem C7_dop_aop : ∀ (sunZenith sunAzimuth obsZenith obsAzimuth babinetSep brewsterSep : ℝ),
    simulateDop sunZenith sunAzimuth obsZenith obsAzimuth babinetSep brewsterSep =
      Complex.abs (getOmega sunZenith sunAzimuth obsZenith obsAzimuth babinetSep brewsterSep) /
        (2 - Complex.abs (getOmega sunZenith sunAzimuth obsZenith obsAzimuth
          babinetSep brewsterSep)) ∧
    simulateAop sunZenith sunAzimuth obsZenith obsAzimuth babinetSep brewsterSep =
      0.5 * (getOmega sunZenith sunAzimuth obsZenith obsAzimuth babinetSep brewsterSep *
        Complex.exp (-2 * Complex.I * (sunAzimuth : ℂ))).arg ∧
    -(π / 2) < simulateAop sunZenith sunAzimuth obsZenith obsAzimuth babinetSep brewsterSep ∧
    simulateAop sunZenith sunAzimuth obsZenith obsAzimuth babinetSep brewsterSep ≤ π / 2 ∧
    1 < getDop (3 / 2) := by
  intro sz saz oz oaz bab brw
  have habs : Complex.abs (3 / 2 : ℂ) = 3 / 2 := by
    rw [show ((3 : ℂ) / 2) = (((3 : ℝ) / 2 : ℝ) : ℂ) by push_cast; ring, Complex.abs_ofReal]
    norm_num
  refine ⟨rfl, rfl, ?_, ?_, ?_⟩
  · have h := Complex.neg_pi_lt_arg (getOmega sz saz oz oaz bab brw *
      Complex.exp (-2 * Complex.I * (saz : ℂ)))
    simp only [simulateAop, getAop]
    linarith
  · have h := Complex.arg_le_pi (getOmega sz saz oz oaz bab brw *
      Complex.exp (-2 * Complex.I * (saz : ℂ)))
    simp only [simulateAop, getAop]
    linarith
  · unfold getDop
    rw [habs]
    norm_num

/-! ## C1 — the special-point projections used in the omega product -/

/-- C1 counterexample: with the sun at the zenith (zenith angle 0, azimuth
0) and a Brewster separation of `pi/2`, the code's `brewster_projection`
equals `tan(pi/8)`, while the claim's stereographic projection of the
direction a full Brewster separation below the sun is
`tan(pi/4) = 1`; `tan(pi/8) < 1`, so the claim fails. -/
theorem C1_counterexample :
    brewster_projection 0 0 (π / 2) ≠ claimedBrewsterProjection 0 0 (π / 2) := by
  have hpi := Real.pi_pos
  have h8 : Real.tan (π / 8) < 1 := by
    have h := Real.tan_lt_tan_of_nonneg_of_lt_pi_div_two
      (show (0 : ℝ) ≤ π / 8 by positivity)
      (show (π : ℝ) / 4 < π / 2 by linarith)
      (show (π : ℝ) / 8 < π / 4 by linarith)
    rwa [Real.tan_pi_div_four] at h
  have e1 : brewster_projection 0 0 (π / 2) = ((Real.tan (π / 8) : ℝ) : ℂ) := by
    have hq : (π : ℝ) / 2 / 4 = π / 8 := by ring
    simp [brewster_projection, hq, Real.tan_zero]
  have e2 : claimedBrewsterProjection 0 0 (π / 2) = 1 := by
    have hq : ((0 : ℝ) + π / 2) / 2 = π / 4 := by ring
    unfold claimedBrewsterProjection
    rw [hq, Real.tan_pi_div_four]
    simp
  rw [e1, e2]
  intro hEq
  have : Real.tan (π / 8) = 1 := by exact_mod_cast hEq
  linarith

/-- C1 (amended): the Brewster and Babinet complex projections used in the
cross-ratio product equal the stereographic projections
`tan(zenith/2) * exp(i * azimuth)` of the directions offset from the sun by
HALF the Brewster separation (below) and HALF the Babinet separation
(above): `tan((sun_zenith + brewster_sep/2)/2) * exp(i*sun_azimuth)` and
`tan((sun_zenith - babinet_sep/2)/2) * exp(i*sun_azimuth)` (the code feeds
`tan(sep/4)` to the tangent addition formula); the Arago and fourth-point
projections equal the negative reciprocal conjugates of the Brewster and
Babinet projections, as claimed. -/
theorem C1_projections_amended : ∀ (sunZenith sunAzimuth brewsterSep babinetSep : ℝ),
    |sunZenith / 2| < π / 2 → |brewsterSep / 4| < π / 2 → |babinetSep / 4| < π / 2 →
    brewster_projection sunZenith sunAzimuth brewsterSep =
      ((Real.tan ((sunZenith + brewsterSep / 2) / 2) : ℝ) : ℂ) *
        Complex.exp ((sunAzimuth : ℂ) * Complex.I) ∧
    babinet_projection sunZenith sunAzimuth babinetSep =
      ((Real.tan ((sunZenith - babinetSep / 2) / 2) : ℝ) : ℂ) *
        Complex.exp ((sunAzimuth : ℂ) * Complex.I) ∧
    arago_projection sunZenith sunAzimuth brewsterSep =
      -1 / (starRingEnd ℂ) (brewster_projection sunZenith sunAzimuth brewsterSep) ∧
    fourth_projection sunZenith sunAzimuth babinetSep =
      -1 / (starRingEnd ℂ) (babinet_projection sunZenith sunAzimuth babinetSep) := by
  intro z az br bb hz hbr hbb
  have tbr : Real.tan ((z + br / 2) / 2) =
      (Real.tan (z / 2) + Real.tan (br / 4)) / (1 - Real.tan (z / 2) * Real.tan (br / 4)) := by
    rw [show (z + br / 2) / 2 = z / 2 + br / 4 by ring]
    exact Real.tan_add' ⟨ne_odd_mul_pi_div_two hz, ne_odd_mul_pi_div_two hbr⟩
  have tbb : Real.tan ((z - bb / 2) / 2) =
      (Real.tan (z / 2) - Real.tan (bb / 4)) / (1 + Real.tan (z / 2) * Real.tan (bb / 4)) := by
    have hneg : |(-(bb / 4) : ℝ)| < π / 2 := by rwa [abs_neg]
    rw [show (z - bb / 2) / 2 = z / 2 + -(bb / 4) by ring,
      Real.tan_add' ⟨ne_odd_mul_pi_div_two hz, ne_odd_mul_pi_div_two hneg⟩, Real.tan_neg]
    ring
  refine ⟨?_, ?_, rfl, rfl⟩
  · simp only [brewster_projection]
    rw [tbr]
    ring
  · simp only [babinet_projection]
    rw [tbb]
    ring

/-- C1 witness: the amended theorem at the concrete input sun zenith
`pi/2`, sun azimuth 0 and separations `pi/2`. -/
theorem C1_projections_amended_witness :
    brewster_projection (π / 2) 0 (π / 2) =
      ((Real.tan ((π / 2 + π / 2 / 2) / 2) : ℝ) : ℂ) *
        Complex.exp (((0 : ℝ) : ℂ) * Complex.I) ∧
    babinet_projection (π / 2) 0 (π / 2) =
      ((Real.tan ((π / 2 - π / 2 / 2) / 2) : ℝ) : ℂ) *
        Complex.exp (((0 : ℝ) : ℂ) * Complex.I) ∧
    arago_projection (π / 2) 0 (π / 2) =
      -1 / (starRingEnd ℂ) (brewster_projection (π / 2) 0 (π / 2)) ∧
    fourth_projection (π / 2) 0 (π / 2) =
      -1 / (starRingEnd ℂ) (babinet_projection (π / 2) 0 (π / 2)) :=
  C1_projections_amended (π / 2) 0 (π / 2) (π / 2)
    (by rw [abs_of_nonneg (by positivity : (0 : ℝ) ≤ π / 2 / 2)]; linarith [Real.pi_pos])
    (by rw [abs_of_nonneg (by positivity : (0 : ℝ) ≤ π / 2 / 4)]; linarith [Real.pi_pos])
    (by rw [abs_of_nonneg (by positivity : (0 : ℝ) ≤ π / 2 / 4)]; linarith [Real.pi_pos])

/-! ## C9 — horizontal structure of the azimuth grid -/

/-- Auxiliary: for a positive horizontal offset, the principal arguments of
the mirrored points `-x + iy` and `x + iy` sum to `pi` when `y` is
nonnegative and to `-pi` otherwise. -/
theorem arg_mirror_aux {x y : ℝ} (hx : 0 < x) :
    (((-x : ℝ) : ℂ) + (y : ℂ) * Complex.I).arg + (((x : ℝ) : ℂ) + (y : ℂ) * Complex.I).arg =
      if 0 ≤ y then π else -π := by
  have habs1 : Complex.abs (((-x : ℝ) : ℂ) + (y : ℂ) * Complex.I) =
      Real.sqrt (x ^ 2 + y ^ 2) := by
    rw [Complex.abs_add_mul_I, neg_sq]
  have habs2 : Complex.abs (((x : ℝ) : ℂ) + (y : ℂ) * Complex.I) =
      Real.sqrt (x ^ 2 + y ^ 2) := Complex.abs_add_mul_I x y
  have hre1 : (((-x : ℝ) : ℂ) + (y : ℂ) * Complex.I).re = -x := by simp
  have hre2 : (((x : ℝ) : ℂ) + (y : ℂ) * Complex.I).re = x := by simp
  have him1 : (((-x : ℝ) : ℂ) + (y : ℂ) * Complex.I).im = y := by simp
  have harg2 : (((x : ℝ) : ℂ) + (y : ℂ) * Complex.I).arg =
      Real.arcsin (y / Real.sqrt (x ^ 2 + y ^ 2)) := by
    rw [Complex.arg_of_re_nonneg (by rw [hre2]; exact hx.le), habs2]
    simp
  rcases le_or_lt 0 y with hy | hy
  · rw [if_pos hy]
    have harg1 : (((-x : ℝ) : ℂ) + (y : ℂ) * Complex.I).arg =
        -Real.arcsin (y / Real.sqrt (x ^ 2 + y ^ 2)) + π := by
      rw [Complex.arg_of_re_neg_of_im_nonneg (by rw [hre1]; linarith)
        (by rw [him1]; exact hy), habs1]
      simp [Real.arcsin_neg, neg_div]
    rw [harg1, harg2]
    ring
  · rw [if_neg (not_le.mpr hy)]
    have harg1 : (((-x : ℝ) : ℂ) + (y : ℂ) * Complex.I).arg =
        -Real.arcsin (y / Real.sqrt (x ^ 2 + y ^ 2)) - π := by
      rw [Complex.arg_of_re_neg_of_im_neg (by rw [hre1]; linarith)
        (by rw [him1]; exact hy), habs1]
      simp [Real.arcsin_neg, neg_div]
    rw [harg1, harg2]
    ring

/-- The principal arguments of horizontally mirrored points `-x + iy` and
`x + iy` (not both coordinates zero) sum to `pi` when `y` is nonnegative
and to `-pi` otherwise: mirrored azimuths are supplementary, not opposite. -/
theorem arg_mirror (x y : ℝ) (h : x ≠ 0 ∨ y ≠ 0) :
    (((-x : ℝ) : ℂ) + (y : ℂ) * Complex.I).arg + (((x : ℝ) : ℂ) + (y : ℂ) * Complex.I).arg =
      if 0 ≤ y then π else -π := by
  rcases lt_trichotomy x 0 with hx | hx | hx
  · have haux := arg_mirror_aux (x := -x) (y := y) (by linarith)
    rw [neg_neg] at haux
    linarith [haux]
  · subst hx
    have hy : y ≠ 0 := by
      rcases h with h0 | h0
      · exact absurd rfl h0
      · exact h0
    have hz : ((((0 : ℝ)) : ℂ) + (y : ℂ) * Complex.I).arg = Real.arcsin (y / |y|) := by
      have habs : Complex.abs (((0 : ℝ) : ℂ) + (y : ℂ) * Complex.I) = |y| := by
        rw [Complex.abs_add_mul_I]
        simp [Real.sqrt_sq_eq_abs]
      rw [Complex.arg_of_re_nonneg (by simp), habs]
      simp
    simp only [neg_zero, hz]
    rcases lt_or_gt_of_ne hy with hy' | hy'
    · rw [abs_of_neg hy', div_neg, div_self hy, Real.arcsin_neg, Real.arcsin_one,
        if_neg (not_le.mpr hy')]
      ring
    · rw [abs_of_pos hy', div_self hy, Real.arcsin_one, if_pos hy'.le]
      ring
  · exact arg_mirror_aux hx

/-- C9 counterexample: on a centered 2-by-2 grid with unit pixel pitch, the
returned azimuth at row 0, column 0 is +135 degrees and at the mirrored
column 1 it is +45 degrees (both are positive because the vertical offset
of row 0 is positive), so azimuth(0, 0) is not the negation of
azimuth(0, 1) as the claim states. -/
theorem C9_counterexample : azimuthDeg 2 2 1 0 0 ≠ -azimuthDeg 2 2 1 0 1 := by
  have key : ∀ col : ℕ, (complexSensorPlane 2 2 1 0 col).im = 1 / 2 := by
    intro col
    simp [complexSensorPlane, yOffset]
    norm_num
  have harg : ∀ col : ℕ, 0 < (complexSensorPlane 2 2 1 0 col).arg := by
    intro col
    have h0 : 0 ≤ (complexSensorPlane 2 2 1 0 col).arg :=
      Complex.arg_nonneg_iff.mpr (by rw [key col]; norm_num)
    rcases h0.lt_or_eq with h | h
    · exact h
    · exfalso
      have hz := Complex.arg_eq_zero_iff.mp h.symm
      rw [key col] at hz
      norm_num at hz
  intro hEq
  unfold azimuthDeg at hEq
  have hfac : (0 : ℝ) < 180 / π := by positivity
  have hp1 := mul_pos hfac (harg (2 - 1 - 0))
  have hp2 := mul_pos hfac (harg (2 - 1 - 1))
  linarith

/-- C9 (amended): the azimuth grid returned by
`OpticalConjugator.get_azimuth_altitude` is horizontally supplementary, not
antisymmetric: for every grid with W columns, every row r and column
c < W whose planar offset is nonzero, azimuth(r, c) + azimuth(r, W-1-c)
equals +180 degrees when the row's vertical offset is nonnegative and -180
degrees otherwise (so azimuth(r, c) = ±180° − azimuth(r, W-1-c), not
−azimuth(r, W-1-c)). -/
theorem C9_mirror_amended : ∀ (H W : ℕ) (s : ℝ) (r c : ℕ), c < W →
    (xOffset W s c ≠ 0 ∨ yOffset H s r ≠ 0) →
    azimuthDeg H W s r c + azimuthDeg H W s r (W - 1 - c) =
      if 0 ≤ yOffset H s r then 180 else -180 := by
  intro H W s r c hc h
  have hπ : (π : ℝ) ≠ 0 := Real.pi_ne_zero
  have hc1 : c ≤ W - 1 := by omega
  have h1W : (1 : ℕ) ≤ W := by omega
  have hWc : W - 1 - (W - 1 - c) = c := Nat.sub_sub_self hc1
  have hxneg : xOffset W s (W - 1 - c) = -xOffset W s c := by
    unfold xOffset
    rw [Nat.cast_sub hc1, Nat.cast_sub h1W]
    push_cast
    ring
  unfold azimuthDeg complexSensorPlane
  rw [hWc, hxneg, ← mul_add, arg_mirror (xOffset W s c) (yOffset H s r) h]
  rcases le_or_lt 0 (yOffset H s r) with hy | hy
  · rw [if_pos hy, if_pos hy, div_mul_cancel₀ _ hπ]
  · rw [if_neg (not_le.mpr hy), if_neg (not_le.mpr hy), mul_neg, div_mul_cancel₀ _ hπ]

/-- C9 witness: the amended theorem at the concrete 2-by-2 grid with unit
pixel pitch, row 0 and column 0. -/
theorem C9_mirror_amended_witness :
    azimuthDeg 2 2 1 0 0 + azimuthDeg 2 2 1 0 (2 - 1 - 0) =
      if 0 ≤ yOffset 2 1 0 then 180 else -180 :=
  C9_mirror_amended 2 2 1 0 0 (by norm_num) (Or.inl (by norm_num [xOffset]))
